import Mathlib

/-!
Shallow embedding of the PCOSDetect application (`src/pcos.py`), a
single-script diagnostic flow: form inputs are validated, an identity
guard compares the supplied name against the stored record for the
supplied patient id, two inference adapters (a follicle detector and a
PCOS classifier) are invoked, the result is upserted into a single-table
SQLite store keyed by `patient_id`, and a comparison against the prior
record is surfaced.

Modelling choices:
* The SQLite table `patients` (primary key `patient_id`) is a
  `List PatientRecord`; the primary-key uniqueness invariant is stated
  explicitly (`UniqueIds`) and shown to be preserved.
* The two models are adapters passed in as `Except Unit Nat`
  (`count_follicles`) and `Except Unit ℚ` (`model.predict` scalar
  score); a Python exception corresponds to `Except.error`.
* `datetime.now()` is a `now : String` parameter.
* Every database / model call the script makes is recorded in a trace
  (`List Call`) at the point where the source makes it, so that
  "no adapter call / no store write / no store read" properties are
  statable.
* Floating-point scores are modelled as rationals; the thresholding and
  percentage arithmetic of the source involve no rounding subtleties.
-/

/-- One row of the `patients` table, fields in schema order
(`init_db`, src/pcos.py lines 50-67). Tuple index 1 is `name`,
3 is `last_prediction`, 4 is `confidence`, 5 is `follicle_count`,
6 is `last_update`, as used by the display code. -/
structure PatientRecord where
  patient_id : String
  name : String
  age : Int
  last_prediction : String
  confidence : ℚ
  follicle_count : Nat
  last_update : String
deriving Repr, DecidableEq

/-- Embeds `get_patient_record` (src/pcos.py lines 69-75):
`SELECT * FROM patients WHERE patient_id = ?` then `fetchone()` —
the first (under the primary-key invariant: the only) row with the
given id, or `none` when absent. -/
def get_patient_record (store : List PatientRecord) (patient_id : String) :
    Option PatientRecord :=
  store.find? (fun r => r.patient_id = patient_id)

/-- Embeds `update_patient_record` (src/pcos.py lines 77-87):
`INSERT OR REPLACE INTO patients ... VALUES (?, ?, ?, ?, ?, ?, now)` —
replace the existing row with the same primary key, or insert a new
row; `last_update` is set to the call time on every write. -/
def update_patient_record (store : List PatientRecord)
    (patient_id name : String) (age : Int) (prediction : String)
    (confidence : ℚ) (follicle_count : Nat) (now : String) :
    List PatientRecord :=
  if store.any (fun r => r.patient_id = patient_id) then
    store.map (fun r => if r.patient_id = patient_id then
      ⟨patient_id, name, age, prediction, confidence, follicle_count, now⟩
      else r)
  else
    store ++ [⟨patient_id, name, age, prediction, confidence, follicle_count, now⟩]

/-- Models Python `str.strip()` as used at src/pcos.py lines 132-133
and 139: drop leading and trailing whitespace characters. Defined
structurally on the character list so that it is kernel-reducible. -/
def pyStrip (s : String) : String :=
  ⟨((s.data.dropWhile Char.isWhitespace).reverse.dropWhile
      Char.isWhitespace).reverse⟩

/-- Models Python `str.lower()` as used at src/pcos.py line 139:
lowercase every character. -/
def pyLower (s : String) : String :=
  ⟨s.data.map Char.toLower⟩

/-- The label computed at src/pcos.py line 162:
`"PCOS Detected" if prediction[0][0] > 0.5 else "No PCOS Detected"`. -/
def result_label (score : ℚ) : String :=
  if score > 1/2 then "PCOS Detected" else "No PCOS Detected"

/-- The fallback display parse of a stored confidence cell
(src/pcos.py lines 174-177): `float(prev_record[4]) if prev_record[4]
is not None else 0.0`, with any parse exception caught and replaced by
`0.0`. The cell is `none` for SQL NULL, `some (Except.ok q)` for a value
whose `float()` conversion succeeds, `some (Except.error ())` for one
whose conversion raises. -/
def confidence_value (cell : Option (Except Unit ℚ)) : ℚ :=
  match cell with
  | none => 0
  | some (Except.ok q) => q
  | some (Except.error _) => 0

/-- Database and model invocations made by one script run, recorded in
source order. -/
inductive Call where
  | getRecord
  | detection
  | classification
  | updateRecord
deriving Repr, DecidableEq

/-- What the script run surfaces to the user. -/
inductive Outcome where
  /-- Line 140: identity-guard warning naming the conflicting stored
  name; analysis blocked. -/
  | nameMismatch (patient_id storedName : String)
  /-- Line 190: "Please provide both Patient ID and Name." -/
  | missingFields
  /-- Line 187: "Age must be between 18 and 45 to proceed." -/
  | ageOutOfRange
  /-- No upload / button not pressed: nothing happens this run. -/
  | noAction
  /-- A model raised: the Streamlit session aborts with an error. -/
  | inferenceError
  /-- Lines 155-185: follicle count, diagnostic label, confidence
  percentage, the prior record (captured before the write) shown in the
  comparison block, and the consistency flag (`some true` = consistent,
  `some false` = changed, `none` = no prior record, comparison
  omitted). -/
  | analyzed (follicle_count : Nat) (result : String) (confidence : ℚ)
      (prev : Option PatientRecord) (consistent : Option Bool)
deriving Repr, DecidableEq

/-- Result of one script run: the store afterwards, the surfaced
outcome, and the trace of database/model calls. -/
structure StepResult where
  store : List PatientRecord
  outcome : Outcome
  calls : List Call
deriving Repr, DecidableEq

/-- The `else` branch of the identity guard (src/pcos.py lines
141-190): upload gate, age gate, button, the two inference calls, the
upsert and the comparison block. `prev_record` is the record fetched at
line 137, before any write. -/
def analyzeBranch (store : List PatientRecord)
    (patient_id patient_name : String) (patient_age : Int)
    (hasUpload analyzeClicked : Bool)
    (detect : Except Unit Nat) (classify : Except Unit ℚ) (now : String)
    (prev_record : Option PatientRecord) (calls0 : List Call) :
    StepResult :=
  if hasUpload ∧ patient_id ≠ "" ∧ patient_name ≠ "" then
    if 18 ≤ patient_age ∧ patient_age ≤ 45 then
      if analyzeClicked then
        match detect with
        | Except.error _ =>
            ⟨store, Outcome.inferenceError, calls0 ++ [Call.detection]⟩
        | Except.ok follicle_count =>
            match classify with
            | Except.error _ =>
                ⟨store, Outcome.inferenceError,
                  calls0 ++ [Call.detection, Call.classification]⟩
            | Except.ok score =>
                let result := result_label score
                let confidence := score * 100
                let store' := update_patient_record store patient_id
                  patient_name patient_age result confidence
                  follicle_count now
                let consistent : Option Bool :=
                  prev_record.map (fun r => r.last_prediction = result)
                ⟨store',
                  Outcome.analyzed follicle_count result confidence
                    prev_record consistent,
                  calls0 ++ [Call.detection, Call.classification,
                    Call.updateRecord]⟩
      else ⟨store, Outcome.noAction, calls0⟩
    else ⟨store, Outcome.ageOutOfRange, calls0⟩
  else
    if hasUpload ∧ (patient_id = "" ∨ patient_name = "") then
      ⟨store, Outcome.missingFields, calls0⟩
    else ⟨store, Outcome.noAction, calls0⟩

/-- One run of the script's form logic (src/pcos.py lines 130-190) on a
given store state. `pid_input` / `name_input` are the raw text-field
contents (the source strips them immediately, line 132-133);
`patient_age` the number input; `hasUpload` whether a file is uploaded;
`analyzeClicked` whether the Analyze button was pressed; `detect` /
`classify` the adapter results; `now` the wall-clock string. -/
def submit (store : List PatientRecord) (pid_input name_input : String)
    (patient_age : Int) (hasUpload analyzeClicked : Bool)
    (detect : Except Unit Nat) (classify : Except Unit ℚ)
    (now : String) : StepResult :=
  let patient_id := pyStrip pid_input
  let patient_name := pyStrip name_input
  let prev_record : Option PatientRecord :=
    if patient_id ≠ "" ∧ patient_name ≠ "" then
      get_patient_record store patient_id
    else none
  let calls0 : List Call :=
    if patient_id ≠ "" ∧ patient_name ≠ "" then [Call.getRecord] else []
  match prev_record with
  | some r =>
      if pyLower (pyStrip r.name) ≠ pyLower patient_name then
        ⟨store, Outcome.nameMismatch patient_id r.name, calls0⟩
      else
        analyzeBranch store patient_id patient_name patient_age
          hasUpload analyzeClicked detect classify now prev_record calls0
  | none =>
      analyzeBranch store patient_id patient_name patient_age
        hasUpload analyzeClicked detect classify now prev_record calls0

/-- Number of rows the store holds for a given id. -/
def countId (store : List PatientRecord) (patient_id : String) : Nat :=
  (store.filter (fun r => r.patient_id = patient_id)).length

/-- The primary-key invariant of the `patients` table: at most one row
per `patient_id`. -/
def UniqueIds (store : List PatientRecord) : Prop :=
  ∀ patient_id, countId store patient_id ≤ 1

/-! Helper lemmas about the store operations. -/

lemma countId_cons (r : PatientRecord) (store : List PatientRecord) (q : String) :
    countId (r :: store) q =
      (if r.patient_id = q then 1 else 0) + countId store q := by
  unfold countId
  rw [List.filter_cons]
  by_cases h : r.patient_id = q
  · simp [h, Nat.add_comm]
  · simp [h]

lemma countId_map_update (store : List PatientRecord) (pid : String)
    (row : PatientRecord) (hrow : row.patient_id = pid) (q : String) :
    countId (store.map (fun r => if r.patient_id = pid then row else r)) q
      = countId store q := by
  induction store with
  | nil => rfl
  | cons h t ih =>
    simp only [List.map_cons]
    rw [countId_cons, countId_cons, ih]
    by_cases hh : h.patient_id = pid
    · rw [if_pos hh, hrow, hh]
    · rw [if_neg hh]

lemma countId_append_single (store : List PatientRecord) (row : PatientRecord)
    (q : String) :
    countId (store ++ [row]) q
      = countId store q + (if row.patient_id = q then 1 else 0) := by
  unfold countId
  rw [List.filter_append, List.length_append]
  by_cases h : row.patient_id = q
  · simp [List.filter_cons, h]
  · simp [List.filter_cons, h]

lemma any_true_iff_countId_pos (store : List PatientRecord) (pid : String) :
    store.any (fun r => r.patient_id = pid) = true ↔ 0 < countId store pid := by
  rw [List.any_eq_true]
  unfold countId
  rw [List.length_pos]
  constructor
  · rintro ⟨x, hx, hpx⟩ hnil
    have hmem : x ∈ store.filter (fun r => r.patient_id = pid) :=
      List.mem_filter.mpr ⟨hx, hpx⟩
    rw [hnil] at hmem
    exact (List.not_mem_nil x) hmem
  · intro hne
    cases hflt : store.filter (fun r => r.patient_id = pid) with
    | nil => exact absurd hflt hne
    | cons y t =>
      have hy : y ∈ store.filter (fun r => r.patient_id = pid) := by
        rw [hflt]; exact List.mem_cons_self y t
      exact ⟨y, (List.mem_filter.mp hy).1, (List.mem_filter.mp hy).2⟩

lemma countId_update (store : List PatientRecord) (pid name : String)
    (age : Int) (pred : String) (conf : ℚ) (fc : Nat) (now : String)
    (q : String) :
    countId (update_patient_record store pid name age pred conf fc now) q
      = if q = pid then max (countId store pid) 1 else countId store q := by
  unfold update_patient_record
  by_cases hany : store.any (fun r => r.patient_id = pid) = true
  · rw [if_pos hany,
      countId_map_update store pid ⟨pid, name, age, pred, conf, fc, now⟩ rfl q]
    have hpos : 0 < countId store pid :=
      (any_true_iff_countId_pos store pid).mp hany
    by_cases hq : q = pid
    · rw [if_pos hq, hq, Nat.max_eq_left hpos]
    · rw [if_neg hq]
  · rw [if_neg hany, countId_append_single]
    have h0 : countId store pid = 0 := by
      by_contra hne
      exact hany ((any_true_iff_countId_pos store pid).mpr
        (Nat.pos_of_ne_zero hne))
    by_cases hq : q = pid
    · rw [if_pos hq, if_pos hq.symm, hq, h0]
      simp
    · rw [if_neg hq, if_neg (fun hc => hq hc.symm), Nat.add_zero]

lemma update_preserves_uniqueIds (store : List PatientRecord)
    (pid name : String) (age : Int) (pred : String) (conf : ℚ) (fc : Nat)
    (now : String) (h : UniqueIds store) :
    UniqueIds (update_patient_record store pid name age pred conf fc now) := by
  intro q
  rw [countId_update]
  by_cases hq : q = pid
  · rw [if_pos hq]
    exact Nat.max_le.mpr ⟨h pid, Nat.le_refl 1⟩
  · rw [if_neg hq]
    exact h q

lemma countId_update_self (store : List PatientRecord) (pid name : String)
    (age : Int) (pred : String) (conf : ℚ) (fc : Nat) (now : String)
    (h : UniqueIds store) :
    countId (update_patient_record store pid name age pred conf fc now) pid
      = 1 := by
  rw [countId_update, if_pos rfl]
  exact Nat.le_antisymm (Nat.max_le.mpr ⟨h pid, Nat.le_refl 1⟩)
    (Nat.le_max_right _ 1)

lemma find_map_update_eq (store : List PatientRecord) (pid : String)
    (row : PatientRecord) (hrow : row.patient_id = pid)
    (hany : store.any (fun r => r.patient_id = pid) = true) :
    (store.map (fun r => if r.patient_id = pid then row else r)).find?
        (fun r => r.patient_id = pid) = some row := by
  induction store with
  | nil => simp at hany
  | cons h t ih =>
    simp only [List.map_cons]
    by_cases hh : h.patient_id = pid
    · rw [if_pos hh]
      exact List.find?_cons_of_pos _ (by simp [hrow])
    · rw [if_neg hh, List.find?_cons_of_neg _ (by simp [hh])]
      apply ih
      simp only [List.any_cons, hh, decide_False, Bool.false_or] at hany
      exact hany

lemma find_append_row_eq (store : List PatientRecord) (pid : String)
    (row : PatientRecord) (hrow : row.patient_id = pid)
    (hany : ¬ store.any (fun r => r.patient_id = pid) = true) :
    (store ++ [row]).find? (fun r => r.patient_id = pid) = some row := by
  rw [List.find?_append]
  have h1 : store.find? (fun r => r.patient_id = pid) = none := by
    rw [List.find?_eq_none]
    intro x hx hpx
    exact hany (List.any_eq_true.mpr ⟨x, hx, hpx⟩)
  rw [h1]
  simp [hrow]

lemma get_update_self (store : List PatientRecord) (pid name : String)
    (age : Int) (pred : String) (conf : ℚ) (fc : Nat) (now : String) :
    get_patient_record
        (update_patient_record store pid name age pred conf fc now) pid
      = some ⟨pid, name, age, pred, conf, fc, now⟩ := by
  unfold get_patient_record update_patient_record
  by_cases hany : store.any (fun r => r.patient_id = pid) = true
  · rw [if_pos hany]
    exact find_map_update_eq store pid _ rfl hany
  · rw [if_neg hany]
    exact find_append_row_eq store pid _ rfl hany

lemma any_true_of_get_some (store : List PatientRecord) (pid : String)
    (r : PatientRecord) (h : get_patient_record store pid = some r) :
    store.any (fun r => r.patient_id = pid) = true := by
  unfold get_patient_record at h
  have hmem := List.mem_of_find?_eq_some h
  have hp := List.find?_some h
  exact List.any_eq_true.mpr ⟨r, hmem, hp⟩

lemma update_length_of_exists (store : List PatientRecord)
    (pid name : String) (age : Int) (pred : String) (conf : ℚ) (fc : Nat)
    (now : String)
    (hany : store.any (fun r => r.patient_id = pid) = true) :
    (update_patient_record store pid name age pred conf fc now).length
      = store.length := by
  unfold update_patient_record
  rw [if_pos hany, List.length_map]

/-- Characterization of a run that reaches the Analyze branch with both
adapters succeeding: the new record is upserted and the outcome carries
the label, the percentage confidence, the prior record captured before
the write, and the consistency flag. -/
lemma submit_analyzes (store : List PatientRecord) (pid name : String)
    (age : Int) (fc : Nat) (s : ℚ) (now : String)
    (hpid : (pyStrip pid) ≠ "") (hname : (pyStrip name) ≠ "")
    (hguard : ∀ r, get_patient_record store (pyStrip pid) = some r →
        pyLower (pyStrip r.name) = pyLower (pyStrip name))
    (hage : 18 ≤ age ∧ age ≤ 45) :
    submit store pid name age true true (Except.ok fc) (Except.ok s) now =
      ⟨update_patient_record store (pyStrip pid) (pyStrip name) age (result_label s)
          (s * 100) fc now,
        Outcome.analyzed fc (result_label s) (s * 100)
          (get_patient_record store (pyStrip pid))
          ((get_patient_record store (pyStrip pid)).map
            (fun r => decide (r.last_prediction = result_label s))),
        [Call.getRecord, Call.detection, Call.classification,
          Call.updateRecord]⟩ := by
  have hcond : (pyStrip pid) ≠ "" ∧ (pyStrip name) ≠ "" := ⟨hpid, hname⟩
  simp only [submit, if_pos hcond]
  cases hget : get_patient_record store (pyStrip pid) with
  | none =>
      simp [analyzeBranch, hage, hpid, hname]
  | some r =>
      simp [analyzeBranch, hguard r hget, hage, hpid, hname]

/-- Whatever else the inputs are, a run whose age is outside [18,45]
leaves the store alone and at most reads the store: every recorded call
is the line-137 fetch. -/
lemma submit_age_out_effects (store : List PatientRecord)
    (pid name : String) (age : Int) (up clicked : Bool)
    (d : Except Unit Nat) (c : Except Unit ℚ) (now : String)
    (hage : ¬ (18 ≤ age ∧ age ≤ 45)) :
    (submit store pid name age up clicked d c now).store = store ∧
    ∀ x ∈ (submit store pid name age up clicked d c now).calls,
      x = Call.getRecord := by
  simp only [submit, analyzeBranch]
  repeat' split
  all_goals simp_all

/-- Whatever else the inputs are, a run in which an adapter raises never
writes the store and never reaches the analyzed outcome. -/
lemma submit_adapter_error_effects (store : List PatientRecord)
    (pid name : String) (age : Int) (up clicked : Bool)
    (d : Except Unit Nat) (c : Except Unit ℚ) (now : String)
    (hfail : d = Except.error () ∨ c = Except.error ()) :
    (submit store pid name age up clicked d c now).store = store ∧
    Call.updateRecord ∉ (submit store pid name age up clicked d c now).calls ∧
    ∀ fc result conf prev cons,
      (submit store pid name age up clicked d c now).outcome
        ≠ Outcome.analyzed fc result conf prev cons := by
  simp only [submit, analyzeBranch]
  repeat' split
  all_goals rcases hfail with h | h
  all_goals simp_all

/-- C1: when the store already holds a record for the supplied
patient_id and the stored name (trimmed, case-insensitive) differs from
the supplied name, the run blocks before any model invocation and
before any store write: the resulting store equals the input store, the
only call made is the store read, and the surfaced warning names the
conflicting stored name. -/
theorem C1_identity_guard_blocks (store : List PatientRecord)
    (pid name : String) (age : Int) (up clicked : Bool)
    (d : Except Unit Nat) (c : Except Unit ℚ) (now : String)
    (r : PatientRecord)
    (hpid : (pyStrip pid) ≠ "") (hname : (pyStrip name) ≠ "")
    (hget : get_patient_record store (pyStrip pid) = some r)
    (hdiff : pyLower (pyStrip r.name) ≠ pyLower (pyStrip name)) :
    submit store pid name age up clicked d c now =
      ⟨store, Outcome.nameMismatch (pyStrip pid) r.name, [Call.getRecord]⟩ := by
  have hcond : (pyStrip pid) ≠ "" ∧ (pyStrip name) ≠ "" := ⟨hpid, hname⟩
  simp only [submit, if_pos hcond]
  rw [hget]
  simp [hdiff]

/-- Witness for C1: Jane Doe's record blocks a John Smith submission
under the same id, leaving the store untouched. -/
theorem C1_identity_guard_blocks_witness :
    submit [⟨"P001", "Jane Doe", 30, "PCOS Detected", 75, 5, "t1"⟩]
        "P001" "John Smith" 30 true true (Except.ok 5) (Except.ok (3/4))
        "t2" =
      ⟨[⟨"P001", "Jane Doe", 30, "PCOS Detected", 75, 5, "t1"⟩],
        Outcome.nameMismatch "P001" "Jane Doe", [Call.getRecord]⟩ := by
  rw [C1_identity_guard_blocks
    [⟨"P001", "Jane Doe", 30, "PCOS Detected", 75, 5, "t1"⟩]
    "P001" "John Smith" 30 true true (Except.ok 5) (Except.ok (3/4)) "t2"
    ⟨"P001", "Jane Doe", 30, "PCOS Detected", 75, 5, "t1"⟩
    (by decide) (by decide) (by decide) (by decide)]
  decide

/-- C2: on a successful analysis the surfaced label is the thresholding
of the classifier score at 0.5 and the confidence is the score as a
percentage; the label is "PCOS Detected" exactly when the score is
strictly above 1/2, so a score of exactly 1/2 yields
"No PCOS Detected". -/
theorem C2_threshold_and_confidence (store : List PatientRecord)
    (pid name : String) (age : Int) (fc : Nat) (s : ℚ) (now : String)
    (hpid : (pyStrip pid) ≠ "") (hname : (pyStrip name) ≠ "")
    (hguard : ∀ r, get_patient_record store (pyStrip pid) = some r →
        pyLower (pyStrip r.name) = pyLower (pyStrip name))
    (hage : 18 ≤ age ∧ age ≤ 45)
    (hs : 0 ≤ s ∧ s ≤ 1) :
    (∃ prev consistent,
      (submit store pid name age true true (Except.ok fc) (Except.ok s)
          now).outcome
        = Outcome.analyzed fc (result_label s) (s * 100) prev consistent) ∧
    (result_label s = "PCOS Detected" ↔ 1/2 < s) ∧
    (s = 1/2 → result_label s = "No PCOS Detected") := by
  refine ⟨?_, ?_, ?_⟩
  · rw [submit_analyzes store pid name age fc s now hpid hname hguard hage]
    exact ⟨_, _, rfl⟩
  · unfold result_label
    by_cases h : 1/2 < s
    · rw [if_pos h]
      exact iff_of_true rfl h
    · rw [if_neg h]
      exact iff_of_false (by decide) h
  · intro h
    rw [h]
    unfold result_label
    rw [if_neg (lt_irrefl _)]

/-- Witness for C2: a score of exactly 1/2 is classified
"No PCOS Detected" with confidence 50%. -/
theorem C2_threshold_and_confidence_witness :
    (∃ prev consistent,
      (submit [] "P1" "Jane" 30 true true (Except.ok 5)
          (Except.ok (1/2)) "t").outcome
        = Outcome.analyzed 5 (result_label (1/2)) ((1/2 : ℚ) * 100) prev
            consistent) ∧
    (result_label (1/2) = "PCOS Detected" ↔ (1 : ℚ)/2 < 1/2) ∧
    ((1 : ℚ)/2 = 1/2 → result_label (1/2) = "No PCOS Detected") :=
  C2_threshold_and_confidence [] "P1" "Jane" 30 5 (1/2) "t"
    (by decide) (by decide)
    (fun r hr => by simp [get_patient_record] at hr)
    (by decide) (by norm_num)

/-- C3: on a successful analysis, if a prior record for the id existed
in the pre-submission store, the comparison flag is `some true`
("consistent") exactly when that prior record's label equals the new
label and `some false` ("changed") otherwise, and the prior record in
the outcome is the one captured before the write; with no prior record
the comparison is omitted (`none`). -/
theorem C3_comparison_flag (store : List PatientRecord)
    (pid name : String) (age : Int) (fc : Nat) (s : ℚ) (now : String)
    (hpid : (pyStrip pid) ≠ "") (hname : (pyStrip name) ≠ "")
    (hguard : ∀ r, get_patient_record store (pyStrip pid) = some r →
        pyLower (pyStrip r.name) = pyLower (pyStrip name))
    (hage : 18 ≤ age ∧ age ≤ 45) :
    (∀ r, get_patient_record store (pyStrip pid) = some r →
      (submit store pid name age true true (Except.ok fc) (Except.ok s)
          now).outcome
        = Outcome.analyzed fc (result_label s) (s * 100) (some r)
            (some (decide (r.last_prediction = result_label s)))) ∧
    (get_patient_record store (pyStrip pid) = none →
      (submit store pid name age true true (Except.ok fc) (Except.ok s)
          now).outcome
        = Outcome.analyzed fc (result_label s) (s * 100) none none) := by
  rw [submit_analyzes store pid name age fc s now hpid hname hguard hage]
  constructor
  · intro r hr
    rw [hr]
    rfl
  · intro h0
    rw [h0]
    rfl

/-- Witness for C3: a second analysis for the same patient whose label
flips from "PCOS Detected" to "No PCOS Detected" reports the prior
record and a `some false` ("changed") flag. -/
theorem C3_comparison_flag_witness :
    (submit [⟨"P1", "Jane", 30, "PCOS Detected", 75, 5, "t1"⟩]
        "P1" "Jane" 30 true true (Except.ok 7) (Except.ok (1/2))
        "t2").outcome
      = Outcome.analyzed 7 (result_label (1/2)) ((1/2 : ℚ) * 100)
          (some ⟨"P1", "Jane", 30, "PCOS Detected", 75, 5, "t1"⟩)
          (some (decide (("PCOS Detected" : String) = result_label (1/2)))) :=
  (C3_comparison_flag [⟨"P1", "Jane", 30, "PCOS Detected", 75, 5, "t1"⟩]
      "P1" "Jane" 30 7 (1/2) "t2" (by decide) (by decide)
      (fun r hr => by
        have hg : get_patient_record
            [⟨"P1", "Jane", 30, "PCOS Detected", 75, 5, "t1"⟩]
            (pyStrip "P1")
            = some ⟨"P1", "Jane", 30, "PCOS Detected", 75, 5, "t1"⟩ := by
          decide
        rw [hg] at hr
        injection hr with h
        rw [← h])
      (by decide)).1
    ⟨"P1", "Jane", 30, "PCOS Detected", 75, 5, "t1"⟩ (by decide)

/-- C4: under the primary-key invariant, a successful analysis upserts
exactly one record for the id, with every field (including
`last_update`, set to the call time) taken from this call; submitting
the same (id, name) twice keeps the store cardinality for that id at 1
and the second write replaces the row in place (same store length)
rather than appending. -/
theorem C4_upsert_keeps_single_row (store : List PatientRecord)
    (pid name : String) (age : Int) (fc1 fc2 : Nat) (s1 s2 : ℚ)
    (now1 now2 : String)
    (hstore : UniqueIds store)
    (hpid : pid ≠ "") (hname : name ≠ "")
    (hptrim : pyStrip pid = pid) (hntrim : pyStrip name = name)
    (hguard : ∀ r, get_patient_record store pid = some r →
        pyLower (pyStrip r.name) = pyLower name)
    (hage : 18 ≤ age ∧ age ≤ 45) :
    UniqueIds (submit store pid name age true true (Except.ok fc1)
        (Except.ok s1) now1).store ∧
    countId (submit store pid name age true true (Except.ok fc1)
        (Except.ok s1) now1).store pid = 1 ∧
    get_patient_record (submit store pid name age true true (Except.ok fc1)
        (Except.ok s1) now1).store pid
      = some ⟨pid, name, age, result_label s1, s1 * 100, fc1, now1⟩ ∧
    UniqueIds (submit (submit store pid name age true true (Except.ok fc1)
        (Except.ok s1) now1).store pid name age true true (Except.ok fc2)
        (Except.ok s2) now2).store ∧
    countId (submit (submit store pid name age true true (Except.ok fc1)
        (Except.ok s1) now1).store pid name age true true (Except.ok fc2)
        (Except.ok s2) now2).store pid = 1 ∧
    (submit (submit store pid name age true true (Except.ok fc1)
        (Except.ok s1) now1).store pid name age true true (Except.ok fc2)
        (Except.ok s2) now2).store.length
      = (submit store pid name age true true (Except.ok fc1)
        (Except.ok s1) now1).store.length ∧
    get_patient_record (submit (submit store pid name age true true
        (Except.ok fc1) (Except.ok s1) now1).store pid name age true true
        (Except.ok fc2) (Except.ok s2) now2).store pid
      = some ⟨pid, name, age, result_label s2, s2 * 100, fc2, now2⟩ := by
  have hpid' : (pyStrip pid) ≠ "" := by rw [hptrim]; exact hpid
  have hname' : (pyStrip name) ≠ "" := by rw [hntrim]; exact hname
  have hguard1 : ∀ r, get_patient_record store (pyStrip pid) = some r →
      pyLower (pyStrip r.name) = pyLower (pyStrip name) := by
    intro r hr
    rw [hptrim] at hr
    rw [hntrim]
    exact hguard r hr
  have hs1 : (submit store pid name age true true (Except.ok fc1)
      (Except.ok s1) now1).store
      = update_patient_record store pid name age (result_label s1)
          (s1 * 100) fc1 now1 := by
    rw [submit_analyzes store pid name age fc1 s1 now1 hpid' hname'
      hguard1 hage, hptrim, hntrim]
  have hU1 : UniqueIds (submit store pid name age true true (Except.ok fc1)
      (Except.ok s1) now1).store := by
    rw [hs1]
    exact update_preserves_uniqueIds _ _ _ _ _ _ _ _ hstore
  have hc1 : countId (submit store pid name age true true (Except.ok fc1)
      (Except.ok s1) now1).store pid = 1 := by
    rw [hs1]
    exact countId_update_self _ _ _ _ _ _ _ _ hstore
  have hg1 : get_patient_record (submit store pid name age true true
      (Except.ok fc1) (Except.ok s1) now1).store pid
      = some ⟨pid, name, age, result_label s1, s1 * 100, fc1, now1⟩ := by
    rw [hs1]
    exact get_update_self _ _ _ _ _ _ _ _
  have hguard2 : ∀ r, get_patient_record (submit store pid name age true
      true (Except.ok fc1) (Except.ok s1) now1).store (pyStrip pid)
      = some r → pyLower (pyStrip r.name) = pyLower (pyStrip name) := by
    intro r hr
    rw [hptrim, hg1] at hr
    injection hr with h
    rw [← h]
  have hs2 : (submit (submit store pid name age true true (Except.ok fc1)
      (Except.ok s1) now1).store pid name age true true (Except.ok fc2)
      (Except.ok s2) now2).store
      = update_patient_record (submit store pid name age true true
          (Except.ok fc1) (Except.ok s1) now1).store pid name age
          (result_label s2) (s2 * 100) fc2 now2 := by
    rw [submit_analyzes _ pid name age fc2 s2 now2 hpid' hname'
      hguard2 hage, hptrim, hntrim]
  have hany1 : (submit store pid name age true true (Except.ok fc1)
      (Except.ok s1) now1).store.any (fun r => r.patient_id = pid)
      = true :=
    any_true_of_get_some _ pid _ hg1
  refine ⟨hU1, hc1, hg1, ?_, ?_, ?_, ?_⟩
  · rw [hs2]
    exact update_preserves_uniqueIds _ _ _ _ _ _ _ _ hU1
  · rw [hs2]
    exact countId_update_self _ _ _ _ _ _ _ _ hU1
  · rw [hs2]
    exact update_length_of_exists _ _ _ _ _ _ _ _ hany1
  · rw [hs2]
    exact get_update_self _ _ _ _ _ _ _ _

/-- Witness for C4: two submissions for P001/Jane Doe on a fresh store
leave exactly one row for P001, carrying the second call's values. -/
theorem C4_upsert_keeps_single_row_witness :
    countId (submit (submit [] "P001" "Jane Doe" 30 true true
        (Except.ok 5) (Except.ok (3/4)) "t1").store "P001" "Jane Doe" 30
        true true (Except.ok 7) (Except.ok (1/2)) "t2").store "P001" = 1 ∧
    (submit (submit [] "P001" "Jane Doe" 30 true true (Except.ok 5)
        (Except.ok (3/4)) "t1").store "P001" "Jane Doe" 30 true true
        (Except.ok 7) (Except.ok (1/2)) "t2").store.length
      = (submit [] "P001" "Jane Doe" 30 true true (Except.ok 5)
        (Except.ok (3/4)) "t1").store.length ∧
    get_patient_record (submit (submit [] "P001" "Jane Doe" 30 true true
        (Except.ok 5) (Except.ok (3/4)) "t1").store "P001" "Jane Doe" 30
        true true (Except.ok 7) (Except.ok (1/2)) "t2").store "P001"
      = some ⟨"P001", "Jane Doe", 30, result_label (1/2),
          (1/2 : ℚ) * 100, 7, "t2"⟩ := by
  have h := C4_upsert_keeps_single_row [] "P001" "Jane Doe" 30 5 7 (3/4)
    (1/2) "t1" "t2" (fun q => Nat.zero_le 1) (by decide) (by decide)
    (by decide) (by decide)
    (fun r hr => by simp [get_patient_record] at hr) (by decide)
  exact ⟨h.2.2.2.2.1, h.2.2.2.2.2.1, h.2.2.2.2.2.2⟩

/-- C5: reading a patient_id with no stored record returns the absent
value `none`; absence is an ordinary, non-exceptional outcome of
`get_patient_record`. -/
theorem C5_get_missing_returns_absent (store : List PatientRecord)
    (pid : String) (habs : ∀ r ∈ store, r.patient_id ≠ pid) :
    get_patient_record store pid = none := by
  unfold get_patient_record
  rw [List.find?_eq_none]
  intro x hx
  simp [habs x hx]

/-- Witness for C5: a store holding only P002 returns `none` for
P001. -/
theorem C5_get_missing_returns_absent_witness :
    get_patient_record
        [⟨"P002", "Amy", 30, "No PCOS Detected", 40, 3, "t"⟩] "P001"
      = none :=
  C5_get_missing_returns_absent
    [⟨"P002", "Amy", 30, "No PCOS Detected", 40, 3, "t"⟩] "P001"
    (by decide)

/-- C6: a submission whose age lies outside [18,45] performs no
inference and no store write — the store is unchanged and neither the
detection adapter, the classification adapter nor the record upsert is
invoked — and, whenever the submission reaches the age gate (file
uploaded, id and name present, no identity conflict), the surfaced
outcome is the range violation. -/
theorem C6_age_gate_blocks (store : List PatientRecord)
    (pid name : String) (age : Int) (up clicked : Bool)
    (d : Except Unit Nat) (c : Except Unit ℚ) (now : String)
    (hage : ¬ (18 ≤ age ∧ age ≤ 45)) :
    (submit store pid name age up clicked d c now).store = store ∧
    Call.detection ∉ (submit store pid name age up clicked d c now).calls ∧
    Call.classification
      ∉ (submit store pid name age up clicked d c now).calls ∧
    Call.updateRecord
      ∉ (submit store pid name age up clicked d c now).calls ∧
    (up = true → (pyStrip pid) ≠ "" → (pyStrip name) ≠ "" →
      (∀ r, get_patient_record store (pyStrip pid) = some r →
          pyLower (pyStrip r.name) = pyLower (pyStrip name)) →
      (submit store pid name age up clicked d c now).outcome
        = Outcome.ageOutOfRange) := by
  obtain ⟨hst, hcalls⟩ :=
    submit_age_out_effects store pid name age up clicked d c now hage
  refine ⟨hst, ?_, ?_, ?_, ?_⟩
  · intro hmem
    exact absurd (hcalls _ hmem) (by decide)
  · intro hmem
    exact absurd (hcalls _ hmem) (by decide)
  · intro hmem
    exact absurd (hcalls _ hmem) (by decide)
  · intro hup hpid hname hguard
    subst hup
    have hcond : (pyStrip pid) ≠ "" ∧ (pyStrip name) ≠ "" := ⟨hpid, hname⟩
    simp only [submit, if_pos hcond]
    cases hget : get_patient_record store (pyStrip pid) with
    | none => simp [analyzeBranch, hage, hpid, hname]
    | some r => simp [analyzeBranch, hguard r hget, hage, hpid, hname]

/-- Witness for C6: age 50 blocks with a range violation, leaving the
store empty and making no model call. -/
theorem C6_age_gate_blocks_witness :
    (submit [] "P1" "Jane" 50 true true (Except.ok 5) (Except.ok (3/4))
        "t").store = [] ∧
    Call.detection ∉ (submit [] "P1" "Jane" 50 true true (Except.ok 5)
        (Except.ok (3/4)) "t").calls ∧
    (submit [] "P1" "Jane" 50 true true (Except.ok 5) (Except.ok (3/4))
        "t").outcome = Outcome.ageOutOfRange := by
  have h := C6_age_gate_blocks [] "P1" "Jane" 50 true true (Except.ok 5)
    (Except.ok (3/4)) "t" (by decide)
  exact ⟨h.1, h.2.1, h.2.2.2.2 rfl (by decide) (by decide)
    (fun r hr => by simp [get_patient_record] at hr)⟩

/-- C7: a failure of either adapter aborts the session with no partial
store write — the store is unchanged, the upsert is never invoked, and
the run never reaches the analyzed outcome. -/
theorem C7_inference_failure_no_partial_write (store : List PatientRecord)
    (pid name : String) (age : Int) (up clicked : Bool)
    (d : Except Unit Nat) (c : Except Unit ℚ) (now : String)
    (hfail : d = Except.error () ∨ c = Except.error ()) :
    (submit store pid name age up clicked d c now).store = store ∧
    Call.updateRecord
      ∉ (submit store pid name age up clicked d c now).calls ∧
    ∀ fc result conf prev cons,
      (submit store pid name age up clicked d c now).outcome
        ≠ Outcome.analyzed fc result conf prev cons :=
  submit_adapter_error_effects store pid name age up clicked d c now hfail

/-- Witness for C7: a failing detection adapter leaves the store empty
and produces no analyzed outcome. -/
theorem C7_inference_failure_no_partial_write_witness :
    (submit [] "P1" "Jane" 30 true true (Except.error ())
        (Except.ok (3/4)) "t").store = [] ∧
    (submit [] "P1" "Jane" 30 true true (Except.error ())
        (Except.ok (3/4)) "t").outcome
      ≠ Outcome.analyzed 5 "PCOS Detected" 75 none none := by
  have h := C7_inference_failure_no_partial_write [] "P1" "Jane" 30 true
    true (Except.error ()) (Except.ok (3/4)) "t" (Or.inl rfl)
  exact ⟨h.1, h.2.2 5 "PCOS Detected" 75 none none⟩

/-- C8: the display parse of a stored confidence cell never fails — a
NULL cell or a cell whose numeric conversion raises is shown as 0.0,
and a convertible cell as its value — while adapter errors are never
swallowed: a run in which either adapter raises never reaches the
analyzed outcome. -/
theorem C8_confidence_parse_fallback :
    (∀ q, confidence_value (some (Except.ok q)) = q) ∧
    confidence_value none = 0 ∧
    (∀ e, confidence_value (some (Except.error e)) = 0) ∧
    (∀ (store : List PatientRecord) (pid name : String) (age : Int)
        (up clicked : Bool) (c : Except Unit ℚ) (now : String)
        (fc : Nat) (result : String) (conf : ℚ)
        (prev : Option PatientRecord) (cons : Option Bool),
      (submit store pid name age up clicked (Except.error ()) c
          now).outcome
        ≠ Outcome.analyzed fc result conf prev cons) ∧
    (∀ (store : List PatientRecord) (pid name : String) (age : Int)
        (up clicked : Bool) (d : Except Unit Nat) (now : String)
        (fc : Nat) (result : String) (conf : ℚ)
        (prev : Option PatientRecord) (cons : Option Bool),
      (submit store pid name age up clicked d (Except.error ())
          now).outcome
        ≠ Outcome.analyzed fc result conf prev cons) := by
  refine ⟨fun q => rfl, rfl, fun e => rfl, ?_, ?_⟩
  · intro store pid name age up clicked c now fc result conf prev cons
    exact (submit_adapter_error_effects store pid name age up clicked _ c
      now (Or.inl rfl)).2.2 fc result conf prev cons
  · intro store pid name age up clicked d now fc result conf prev cons
    exact (submit_adapter_error_effects store pid name age up clicked d _
      now (Or.inr rfl)).2.2 fc result conf prev cons

/-- C9: the supplied patient_id and name are stripped before any use —
a whitespace-only id or name is treated as missing (no store read, no
inference, no write, and a missing-fields warning when a file is
uploaded), and two submissions whose raw id/name differ only in
surrounding whitespace produce identical results. -/
theorem C9_inputs_are_stripped :
    (∀ (store : List PatientRecord) (pid name : String) (age : Int)
        (up clicked : Bool) (d : Except Unit Nat) (c : Except Unit ℚ)
        (now : String),
      (pyStrip pid) = "" ∨ (pyStrip name) = "" →
      (submit store pid name age up clicked d c now).store = store ∧
      (submit store pid name age up clicked d c now).calls = [] ∧
      (up = true →
        (submit store pid name age up clicked d c now).outcome
          = Outcome.missingFields) ∧
      (up = false →
        (submit store pid name age up clicked d c now).outcome
          = Outcome.noAction)) ∧
    (∀ (store : List PatientRecord) (pid pid' name name' : String)
        (age : Int) (up clicked : Bool) (d : Except Unit Nat)
        (c : Except Unit ℚ) (now : String),
      pyStrip pid = pyStrip pid' → pyStrip name = pyStrip name' →
      submit store pid name age up clicked d c now
        = submit store pid' name' age up clicked d c now) := by
  constructor
  · intro store pid name age up clicked d c now hempty
    have hcond : ¬ ((pyStrip pid) ≠ "" ∧ (pyStrip name) ≠ "") := by
      rcases hempty with h | h
      · exact fun hc => hc.1 h
      · exact fun hc => hc.2 h
    have hrun : submit store pid name age up clicked d c now =
        ⟨store,
          if up = true then Outcome.missingFields else Outcome.noAction,
          []⟩ := by
      simp only [submit, if_neg hcond]
      cases up with
      | false => simp [analyzeBranch]
      | true => rcases hempty with h | h <;> simp [analyzeBranch, h]
    rw [hrun]
    refine ⟨rfl, rfl, ?_, ?_⟩
    · intro h
      rw [h]
      rfl
    · intro h
      rw [h]
      rfl
  · intro store pid pid' name name' age up clicked d c now h1 h2
    simp only [submit]
    rw [h1, h2]

/-- Witness for C9: a whitespace-only name blocks with a missing-fields
warning and touches nothing, and padding id/name with spaces leaves the
whole run unchanged. -/
theorem C9_inputs_are_stripped_witness :
    (submit [] "P1" "   " 30 true true (Except.ok 5) (Except.ok (3/4))
        "t").store = [] ∧
    (submit [] "P1" "   " 30 true true (Except.ok 5) (Except.ok (3/4))
        "t").calls = [] ∧
    (submit [] "P1" "   " 30 true true (Except.ok 5) (Except.ok (3/4))
        "t").outcome = Outcome.missingFields ∧
    submit [] " P1 " " Jane " 30 true true (Except.ok 5)
        (Except.ok (3/4)) "t"
      = submit [] "P1" "Jane" 30 true true (Except.ok 5)
        (Except.ok (3/4)) "t" := by
  have h1 := C9_inputs_are_stripped.1 [] "P1" "   " 30 true true
    (Except.ok 5) (Except.ok (3/4)) "t" (Or.inr (by decide))
  have h2 := C9_inputs_are_stripped.2 [] " P1 " "P1" " Jane " "Jane" 30
    true true (Except.ok 5) (Except.ok (3/4)) "t" (by decide) (by decide)
  exact ⟨h1.1, h1.2.1, h1.2.2.1 rfl, h2⟩

/-- C10: a successful re-analysis for an existing patient_id overwrites
every field of the stored record with this call's values — name (in the
newly supplied casing), age, label, confidence, follicle count and
timestamp — even when the supplied name matches the stored one only
case-insensitively. -/
theorem C10_reanalysis_overwrites_all_fields (store : List PatientRecord)
    (pid name : String) (age : Int) (fc : Nat) (s : ℚ) (now : String)
    (r : PatientRecord)
    (hpid : (pyStrip pid) ≠ "") (hname : (pyStrip name) ≠ "")
    (hget : get_patient_record store (pyStrip pid) = some r)
    (hmatch : pyLower (pyStrip r.name) = pyLower (pyStrip name))
    (hage : 18 ≤ age ∧ age ≤ 45) :
    get_patient_record
        (submit store pid name age true true (Except.ok fc) (Except.ok s)
          now).store (pyStrip pid)
      = some ⟨pyStrip pid, pyStrip name, age, result_label s, s * 100,
          fc, now⟩ := by
  have hguard : ∀ r', get_patient_record store (pyStrip pid) = some r' →
      pyLower (pyStrip r'.name) = pyLower (pyStrip name) := by
    intro r' hr'
    rw [hget] at hr'
    injection hr' with h
    rw [← h]
    exact hmatch
  rw [submit_analyzes store pid name age fc s now hpid hname hguard hage]
  exact get_update_self store (pyStrip pid) (pyStrip name) age
    (result_label s) (s * 100) fc now

/-- Witness for C10: resubmitting P001 as "jane doe" (stored:
"Jane Doe") replaces the whole row, including the name's casing. -/
theorem C10_reanalysis_overwrites_all_fields_witness :
    get_patient_record
        (submit [⟨"P001", "Jane Doe", 30, "PCOS Detected", 75, 5, "t1"⟩]
          "P001" "jane doe" 31 true true (Except.ok 7) (Except.ok (1/2))
          "t2").store "P001"
      = some ⟨"P001", "jane doe", 31, result_label (1/2),
          (1/2 : ℚ) * 100, 7, "t2"⟩ := by
  have h := C10_reanalysis_overwrites_all_fields
    [⟨"P001", "Jane Doe", 30, "PCOS Detected", 75, 5, "t1"⟩]
    "P001" "jane doe" 31 7 (1/2) "t2"
    ⟨"P001", "Jane Doe", 30, "PCOS Detected", 75, 5, "t1"⟩
    (by decide) (by decide) (by decide) (by decide) (by decide)
  have ht1 : pyStrip "P001" = "P001" := by decide
  have ht2 : pyStrip "jane doe" = "jane doe" := by decide
  rw [ht1, ht2] at h
  exact h
